import Mathlib

/-!
Verification of the path-validation and response-header policy of
server.py, the static file server of this repository.  The Python code is
shallowly embedded: strings are Lean strings (in this toolchain a `String`
is a packed `List Char`, so all string scans are list scans), the handler
class becomes a family of functions from the request method and path to a
response value, and the inherited pieces of the standard library
(`http.server`) that the handler visibly interacts with — method dispatch,
`send_error`, the base file responder — are modelled as explicit
parameters or small functions, as documented on each definition.
-/

set_option linter.unusedVariables false

/-- Allowed file extensions (whitelist), server.py line 16. -/
def ALLOWED_EXTENSIONS : List String :=
  [".html", ".css", ".js", ".json", ".png", ".jpg", ".jpeg", ".gif", ".svg",
   ".ico", ".woff", ".woff2", ".ttf", ".webp"]

/-- Allowed directories (relative to server root), server.py line 19.  As in
the source, where no function mentions ALLOWED_PATHS, no other definition of
this development reads this constant. -/
def ALLOWED_PATHS : List String := ["/", "/index.html", "/app.js", "/styles.css"]

/-- Python substring test: the expression `sub in s` on two strings, true
when `sub` occurs contiguously inside `s`. -/
def containsSub (s pat : String) : Bool := decide (pat.toList <:+: s.toList)

/-- Python `s.startswith(pre)`. -/
def startsWithStr (s pre : String) : Bool := decide (pre.toList <+: s.toList)

/-- Python `path.split('?')[0]`: the part of the string before the first
question mark (the whole string when there is none). -/
def stripQuery (p : String) : String :=
  String.mk (p.toList.takeWhile (fun c => c != '?'))

/-- Hexadecimal digit as accepted by Python `int(_, 16)`. -/
def isHexDigit (c : Char) : Bool :=
  ('0' ≤ c && c ≤ '9') || ('a' ≤ c && c ≤ 'f') || ('A' ≤ c && c ≤ 'F')

/-- Value of a hexadecimal digit. -/
def hexVal (c : Char) : Nat :=
  if '0' ≤ c && c ≤ '9' then c.toNat - '0'.toNat
  else if 'a' ≤ c && c ≤ 'f' then c.toNat - 'a'.toNat + 10
  else c.toNat - 'A'.toNat + 10

/-- Byte read by `unquote_to_bytes` from the two characters after a percent
sign: the `_hextobyte` table of urllib maps exactly the two-hex-digit pairs
(either case) to their byte; any other pair is a lookup failure and the text
stays literal. -/
def twoCharHexByte (c1 c2 : Char) : Option Nat :=
  if isHexDigit c1 && isHexDigit c2 then some (16 * hexVal c1 + hexVal c2)
  else none

/-- urllib.parse.unquote_to_bytes on one run of ASCII characters: the run is
split on percent signs; each percent sign followed by two hex digits (in the
same split item, so never crossing the next percent sign) becomes that byte,
any other percent sign stays literal, and ordinary characters contribute
their code point as a byte. -/
def unquoteToBytes : List Char → List Nat
  | [] => []
  | ['%'] => ['%'.toNat]
  | ['%', c1] => ['%'.toNat, c1.toNat]
  | '%' :: c1 :: c2 :: rest2 =>
    if c1 = '%' then '%'.toNat :: unquoteToBytes (c1 :: c2 :: rest2)
    else if c2 = '%' then '%'.toNat :: c1.toNat :: unquoteToBytes (c2 :: rest2)
    else
      (match twoCharHexByte c1 c2 with
       | some b => b :: unquoteToBytes rest2
       | none => '%'.toNat :: unquoteToBytes (c1 :: c2 :: rest2))
  | c :: rest => c.toNat :: unquoteToBytes rest

/-- Unicode replacement character, produced by the replace error handler. -/
def replChar : Char := Char.ofNat 0xFFFD

/-- UTF-8 continuation byte. -/
def isCont (b : Nat) : Bool := 0x80 ≤ b && b ≤ 0xBF

/-- Kind of a UTF-8 lead byte: expected sequence length, 0 for a byte that
can begin no sequence (stray continuation bytes, C0, C1, F5 and above). -/
def leadKind (b : Nat) : Nat :=
  if b ≤ 0x7F then 1
  else if 0xC2 ≤ b && b ≤ 0xDF then 2
  else if 0xE0 ≤ b && b ≤ 0xEF then 3
  else if 0xF0 ≤ b && b ≤ 0xF4 then 4
  else 0

/-- Valid range of the first continuation byte of a three-byte sequence
(E0 excludes overlong forms, ED excludes surrogates). -/
def cont3Ok (b b2 : Nat) : Bool :=
  (if b = 0xE0 then 0xA0 else 0x80) ≤ b2 && b2 ≤ (if b = 0xED then 0x9F else 0xBF)

/-- Valid range of the first continuation byte of a four-byte sequence
(F0 excludes overlong forms, F4 caps the code space at 10FFFF). -/
def cont4Ok (b b2 : Nat) : Bool :=
  (if b = 0xF0 then 0x90 else 0x80) ≤ b2 && b2 ≤ (if b = 0xF4 then 0x8F else 0xBF)

/-- Scalar of a two-byte sequence. -/
def cp2 (b b2 : Nat) : Char := Char.ofNat ((b - 0xC0) * 64 + (b2 - 0x80))

/-- Scalar of a three-byte sequence. -/
def cp3 (b b2 b3 : Nat) : Char :=
  Char.ofNat ((b - 0xE0) * 4096 + (b2 - 0x80) * 64 + (b3 - 0x80))

/-- Scalar of a four-byte sequence. -/
def cp4 (b b2 b3 b4 : Nat) : Char :=
  Char.ofNat ((b - 0xF0) * 262144 + (b2 - 0x80) * 4096 + (b3 - 0x80) * 64 + (b4 - 0x80))

/-- UTF-8 decoding with the replace error handler, as Python
`bytes.decode('utf-8', 'replace')` performs it: each maximal invalid
subpart is replaced by one replacement character and decoding resumes at
the byte that made the sequence invalid.  The recursion inspects up to
four bytes, so lists of length under four are matched separately. -/
def utf8DecodeReplace : List Nat → List Char
  | [] => []
  | [b] =>
    if leadKind b = 1 then [Char.ofNat b] else [replChar]
  | [b, b2] =>
    if leadKind b = 1 then Char.ofNat b :: utf8DecodeReplace [b2]
    else if leadKind b = 2 then
      (if isCont b2 then [cp2 b b2] else replChar :: utf8DecodeReplace [b2])
    else if leadKind b = 3 then
      (if cont3Ok b b2 then [replChar] else replChar :: utf8DecodeReplace [b2])
    else if leadKind b = 4 then
      (if cont4Ok b b2 then [replChar] else replChar :: utf8DecodeReplace [b2])
    else replChar :: utf8DecodeReplace [b2]
  | [b, b2, b3] =>
    if leadKind b = 1 then Char.ofNat b :: utf8DecodeReplace [b2, b3]
    else if leadKind b = 2 then
      (if isCont b2 then cp2 b b2 :: utf8DecodeReplace [b3]
       else replChar :: utf8DecodeReplace [b2, b3])
    else if leadKind b = 3 then
      (if cont3Ok b b2 then
        (if isCont b3 then [cp3 b b2 b3] else replChar :: utf8DecodeReplace [b3])
       else replChar :: utf8DecodeReplace [b2, b3])
    else if leadKind b = 4 then
      (if cont4Ok b b2 then
        (if isCont b3 then [replChar] else replChar :: utf8DecodeReplace [b3])
       else replChar :: utf8DecodeReplace [b2, b3])
    else replChar :: utf8DecodeReplace [b2, b3]
  | b :: b2 :: b3 :: b4 :: rest =>
    if leadKind b = 1 then Char.ofNat b :: utf8DecodeReplace (b2 :: b3 :: b4 :: rest)
    else if leadKind b = 2 then
      (if isCont b2 then cp2 b b2 :: utf8DecodeReplace (b3 :: b4 :: rest)
       else replChar :: utf8DecodeReplace (b2 :: b3 :: b4 :: rest))
    else if leadKind b = 3 then
      (if cont3Ok b b2 then
        (if isCont b3 then cp3 b b2 b3 :: utf8DecodeReplace (b4 :: rest)
         else replChar :: utf8DecodeReplace (b3 :: b4 :: rest))
       else replChar :: utf8DecodeReplace (b2 :: b3 :: b4 :: rest))
    else if leadKind b = 4 then
      (if cont4Ok b b2 then
        (if isCont b3 then
          (if isCont b4 then cp4 b b2 b3 b4 :: utf8DecodeReplace rest
           else replChar :: utf8DecodeReplace (b4 :: rest))
         else replChar :: utf8DecodeReplace (b3 :: b4 :: rest))
       else replChar :: utf8DecodeReplace (b2 :: b3 :: b4 :: rest))
    else replChar :: utf8DecodeReplace (b2 :: b3 :: b4 :: rest)

/-- ASCII character. -/
def isAscii (c : Char) : Bool := c.toNat ≤ 0x7F

/-- Percent-decode and UTF-8-decode one completed run of ASCII characters,
accumulated in reverse. -/
def flushRun (buf : List Char) : List Char :=
  utf8DecodeReplace (unquoteToBytes buf.reverse)

/-- urllib.parse.unquote on the character list of a string: percent escapes
are decoded inside each maximal run of ASCII characters (the regular
expression `_asciire` of the source splits the string into such runs) and
the byte string collected from a run is decoded as UTF-8 with the replace
error handler; non-ASCII characters pass through unchanged and separate
the runs.  `buf` accumulates the current ASCII run in reverse. -/
def unquoteAux (buf : List Char) : List Char → List Char
  | [] => flushRun buf
  | c :: t =>
    if isAscii c then unquoteAux (c :: buf) t
    else flushRun buf ++ c :: unquoteAux [] t

/-- unquote on a character list. -/
def unquoteChars (l : List Char) : List Char := unquoteAux [] l

/-- urllib.parse.unquote with its default arguments (encoding utf-8, errors
replace), as called on server.py line 48; the source returns the string
unchanged when it holds no percent sign. -/
def unquote (s : String) : String :=
  if containsSub s "%" then String.mk (unquoteChars s.toList) else s

/-- os.path.basename on a character list, for posix paths: the part after
the last slash (`p[p.rfind('/') + 1:]`), computed here as the reversed
longest slash-free suffix. -/
def basenameList (l : List Char) : List Char :=
  (l.reverse.takeWhile (fun c => c != '/')).reverse

/-- os.path.basename, server.py line 70. -/
def basename (s : String) : String := String.mk (basenameList s.toList)

/-- Extension component of os.path.splitext on the basename's characters.
The source locates the last dot after the last slash (`sepIndex`,
`dotIndex`) and returns the substring from that dot provided some character
of the basename strictly before it is not a dot (leading dots of the
basename never begin an extension).  Here the same indices are read off the
reversed basename: the characters after the last dot are the longest
dot-free suffix, and the guard scans the characters before the last dot. -/
def splitextExtList (b : List Char) : String :=
  match b.reverse.dropWhile (fun c => c != '.') with
  | [] => ""
  | _ :: beforeRev =>
    if beforeRev.any (fun c => c != '.') then
      String.mk ('.' :: (b.reverse.takeWhile (fun c => c != '.')).reverse)
    else ""

/-- os.path.splitext(path)[1], server.py line 71.  splitext compares the
last dot of the whole path with the last slash, which is the same as
reading the extension off the basename. -/
def splitextExt (p : String) : String := splitextExtList (basenameList p.toList)

/-- Extension read plainly from the last dot of a string (the substring
from the last dot, empty when there is no dot), as the specification words
the extension check; unlike splitext it has no special case for leading
dots.  Stated claims compare it with splitextExt. -/
def lastDotExtList (b : List Char) : String :=
  match b.reverse.dropWhile (fun c => c != '.') with
  | [] => ""
  | _ :: _ => String.mk ('.' :: (b.reverse.takeWhile (fun c => c != '.')).reverse)

/-- Extension from the last dot of a string. -/
def lastDotExt (s : String) : String := lastDotExtList s.toList

/-- Python str.lower as it acts on the strings compared here: ASCII case
mapping.  (Full Unicode lowering differs only on non-ASCII characters, and
no member of the ASCII-only whitelist can be produced by lowering a
non-ASCII character, so membership in ALLOWED_EXTENSIONS is unaffected.) -/
def lowerAscii (s : String) : String := String.mk (s.toList.map Char.toLower)

/-- posixpath.normpath, called on server.py line 63, translated clause by
clause from the CPython source (collapse empty and dot components, resolve
dot-dot against earlier components, keep a doubled leading slash). -/
def normpath (path : String) : String :=
  if path = "" then "."
  else
    let initialSlashes : Nat :=
      if startsWithStr path "/" then
        if startsWithStr path "//" && !startsWithStr path "///" then 2 else 1
      else 0
    let comps := path.splitOn "/"
    let newComps := comps.foldl (fun acc comp =>
      if comp = "" || comp = "." then acc
      else if comp != ".." || (initialSlashes == 0 && acc.isEmpty) ||
          (!acc.isEmpty && acc.getLast? == some "..") then acc ++ [comp]
      else if !acc.isEmpty then acc.dropLast
      else acc) []
    let joined := String.intercalate "/" newComps
    let res := String.mk (List.replicate initialSlashes '/') ++ joined
    if res = "" then "." else res

/-- Rejection categories of is_safe_path, one per diagnostic branch of
server.py lines 52 to 74. -/
inductive Reason where
  | traversal
  | hidden
  | badExt
deriving DecidableEq

/-- Body of is_safe_path after the query strip and the percent decode
(server.py lines 52 to 76), refined to report which branch rejected: none
is an allowed path (return True), some r a rejection (return False after
the print of category r).  The normalized form is computed exactly as in
lines 62 to 67 of the source and, as there, never used afterwards. -/
def validatePath (path : String) : Option Reason :=
  if containsSub path ".." || containsSub path "//" then some Reason.traversal
  else if containsSub path "/." || startsWithStr path "." then some Reason.hidden
  else
    let normalized := normpath path
    let normalized := if startsWithStr normalized "/" && normalized.length > 1 then
      normalized.drop 1 else normalized
    if containsSub (basename path) "." then
      let ext := lowerAscii (splitextExt path)
      if ext ∈ ALLOWED_EXTENSIONS then none else some Reason.badExt
    else none

/-- is_safe_path (server.py lines 40 to 76) with the percent-decoding step
abstracted: `dec` returns none when decoding raises, and the bare `except`
of lines 46 to 50 then keeps the undecoded string. -/
def is_safe_pathGen (dec : String → Option String) (p : String) : Option Reason :=
  let path := stripQuery p
  let path := (dec path).getD path
  validatePath path

/-- The decode step of the source: urllib.parse.unquote, which is total on
strings, wrapped in the try block of server.py lines 46 to 50. -/
def tryUnquote (s : String) : Option String := some (unquote s)

/-- is_safe_path of server.py, refined to the rejection category. -/
def validate (p : String) : Option Reason := is_safe_pathGen tryUnquote p

/-- is_safe_path of server.py: the boolean verdict. -/
def is_safe_path (p : String) : Bool := (validate p).isNone

/-- The path value that the checks of lines 52 to 76 actually see: the
request path with the query stripped and percent escapes decoded. -/
def decodedPath (p : String) : String :=
  (tryUnquote (stripQuery p)).getD (stripQuery p)

/-- The head of a non-empty `dropWhile` residue fails the predicate. -/
theorem dropWhile_head_not {α} (p : α → Bool) (l : List α) (x : α) (xs : List α)
    (h : l.dropWhile p = x :: xs) : p x = false := by
  induction l with
  | nil => simp at h
  | cons a t ih =>
    by_cases hp : p a = true
    · simp only [List.dropWhile_cons, hp, if_true] at h
      exact ih h
    · simp only [List.dropWhile_cons, hp, if_false, Bool.false_eq_true] at h
      rw [List.cons.injEq] at h
      obtain ⟨h1, h2⟩ := h
      subst h1
      simpa using hp

/-- A path with no slash-dot occurrence and no leading dot has a basename
with no leading dot: the basename either is the whole path or follows a
literal slash. -/
theorem basename_no_dot_head (l : List Char) (h3 : ¬ (['/', '.'] <:+: l))
    (h4 : l.head? ≠ some '.') : (basenameList l).head? ≠ some '.' := by
  intro hcon
  have hl : l = (l.reverse.dropWhile (fun c => c != '/')).reverse ++ basenameList l := by
    unfold basenameList
    rw [← List.reverse_append, List.takeWhile_append_dropWhile, List.reverse_reverse]
  obtain ⟨bs, hbs⟩ : ∃ bs, basenameList l = '.' :: bs := by
    cases hb : basenameList l with
    | nil => rw [hb] at hcon; simp at hcon
    | cons x xs =>
      rw [hb] at hcon
      simp only [List.head?_cons, Option.some.injEq] at hcon
      exact ⟨xs, by rw [hcon]⟩
  cases hdw : l.reverse.dropWhile (fun c => c != '/') with
  | nil =>
    rw [hdw] at hl
    simp only [List.reverse_nil, List.nil_append] at hl
    apply h4
    rw [hl, hbs]
    rfl
  | cons x dws =>
    have hx : x = '/' := by
      have := dropWhile_head_not (fun c => c != '/') l.reverse x dws hdw
      simpa using this
    apply h3
    rw [hl, hbs, hdw, hx]
    refine ⟨dws.reverse, bs, ?_⟩
    simp

/-- Where the basename has no leading dot, splitext's extension is exactly
the substring from the last dot: the leading-dots special case of splitext
cannot fire. -/
theorem splitextExtList_eq_lastDot (b : List Char) (hhead : b.head? ≠ some '.') :
    splitextExtList b = lastDotExtList b := by
  unfold splitextExtList lastDotExtList
  cases hdw : b.reverse.dropWhile (fun c => c != '.') with
  | nil => rfl
  | cons x beforeRev =>
    have hba : beforeRev.any (fun c => c != '.') = true := by
      cases hb : b with
      | nil => rw [hb] at hdw; simp at hdw
      | cons c cs =>
        have hc : c ≠ '.' := by
          intro hceq
          apply hhead
          rw [hb, hceq]
          rfl
        have hrev : b.reverse = cs.reverse ++ [c] := by rw [hb]; simp
        have hsuffix : x :: beforeRev <:+ b.reverse := by
          rw [← hdw]; exact List.dropWhile_suffix _
        obtain ⟨pre, hpre⟩ := hsuffix
        have hlast : (x :: beforeRev).getLast? = some c := by
          have h1 : b.reverse.getLast? = some c := by
            rw [hrev]; exact List.getLast?_concat _
          rw [← hpre, List.getLast?_append] at h1
          cases hg : (x :: beforeRev).getLast? with
          | none => simp at hg
          | some y => rw [hg] at h1; simpa using h1
        have hmem : c ∈ x :: beforeRev :=
          List.mem_of_mem_getLast? (by rw [hlast]; rfl)
        have hx : x = '.' := by
          have := dropWhile_head_not (fun c => c != '.') b.reverse x beforeRev hdw
          simpa using this
        have hmem' : c ∈ beforeRev := by
          cases hmem with
          | head => exact absurd hx (by simpa using hc)
          | tail _ hm => exact hm
        exact List.any_eq_true.mpr ⟨c, hmem', by simpa using hc⟩
    simp [hba]

/-- Diagnostic line printed for a rejection, server.py lines 54, 59 and 73;
the interpolated path is the decoded path variable at that point. -/
def reasonLine (r : Reason) (path : String) : String :=
  match r with
  | Reason.traversal => "⚠️  Blocked path traversal attempt: " ++ path
  | Reason.hidden => "⚠️  Blocked hidden file access: " ++ path
  | Reason.badExt => "⚠️  Blocked disallowed file type: " ++ path

/-- Console lines one call of is_safe_path prints: nothing for an allowed
path, the one diagnostic line of the rejecting branch otherwise. -/
def validatorEmits (p : String) : List String :=
  match validate p with
  | none => []
  | some r => [reasonLine r (decodedPath p)]

/-- One call of is_safe_path with its only side effect (the console log)
made explicit: from the log lines printed so far, the boolean verdict and
the log after the call. -/
def runValidator (p : String) (log : List String) : Bool × List String :=
  (is_safe_path p, log ++ validatorEmits p)

/-- An HTTP response as the handler shapes it: status code and the header
fields sent, in order. -/
structure Response where
  status : Nat
  headers : List (String × String)

/-- Content-Security-Policy value, server.py lines 87 to 95. -/
def csp : String :=
  "default-src 'self'; script-src 'self' 'unsafe-inline'; " ++
  "style-src 'self' 'unsafe-inline' https://fonts.googleapis.com; " ++
  "font-src 'self' https://fonts.gstatic.com; img-src 'self' data:; " ++
  "connect-src 'self'; frame-ancestors 'self';"

/-- The security headers that the overridden end_headers sends, in emission
order, server.py lines 78 to 100. -/
def securityHeaders : List (String × String) :=
  [("X-Content-Type-Options", "nosniff"),
   ("X-Frame-Options", "SAMEORIGIN"),
   ("X-XSS-Protection", "1; mode=block"),
   ("Referrer-Policy", "strict-origin-when-cross-origin"),
   ("Permissions-Policy", "geolocation=(), microphone=(), camera=()"),
   ("Content-Security-Policy", csp),
   ("Cache-Control", "no-store, no-cache, must-revalidate"),
   ("Expires", "0")]

/-- The overridden end_headers (server.py lines 78 to 102): every response,
whatever code sent its earlier headers, gets the security headers appended
before the header block is terminated.  `sent` is the list of headers the
caller sent before calling end_headers. -/
def end_headers (sent : List (String × String)) : List (String × String) :=
  sent ++ securityHeaders

/-- BaseHTTPRequestHandler.send_error as the handler observes it: the error
status is sent, then the standard error headers (Connection close, the
error content type and length, abstracted as the `errorHead` argument
because their exact values belong to the Python library, not this
repository), and then end_headers — which is the override above, so error
responses also carry the security headers. -/
def sendError (errorHead : Nat → List (String × String)) (code : Nat) : Response :=
  Response.mk code (end_headers (errorHead code))

/-- do_GET (server.py lines 23 to 28) with the validator abstracted as
`safe`: a rejected path short-circuits to send_error 403; an accepted path
is delegated to SimpleHTTPRequestHandler.do_GET, modelled by `responder`,
which returns the status and the headers the base class sends before its
end_headers call — a call that lands in the override, appending the
security headers. -/
def do_GETWith (safe : String → Bool) (responder : String → Response)
    (errorHead : Nat → List (String × String)) (p : String) : Response :=
  if safe p then
    Response.mk (responder p).status (end_headers (responder p).headers)
  else sendError errorHead 403

/-- do_GET of the handler, with its actual validator. -/
def do_GET (responder : String → Response)
    (errorHead : Nat → List (String × String)) (p : String) : Response :=
  do_GETWith is_safe_path responder errorHead p

/-- Method dispatch of BaseHTTPRequestHandler.handle_one_request over the
handler class, with the validator abstracted as `safe`: the class defines
do_GET, do_POST, do_PUT and do_DELETE (server.py lines 23 to 38), inherits
do_HEAD from SimpleHTTPRequestHandler (modelled by `headResponder`, decorated
by the overridden end_headers like any response), and a request whose method
names no do_ attribute is answered send_error 501 by the base class. -/
def handleRequestWith (safe : String → Bool) (responder headResponder : String → Response)
    (errorHead : Nat → List (String × String)) (method p : String) : Response :=
  if method = "GET" then do_GETWith safe responder errorHead p
  else if method = "POST" || method = "PUT" || method = "DELETE" then
    sendError errorHead 405
  else if method = "HEAD" then
    Response.mk (headResponder p).status (end_headers (headResponder p).headers)
  else sendError errorHead 501

/-- The server's per-request behavior: dispatch with the real validator. -/
def handleRequest (responder headResponder : String → Response)
    (errorHead : Nat → List (String × String)) (method p : String) : Response :=
  handleRequestWith is_safe_path responder headResponder errorHead method p

/-- The server with the module-level ALLOWED_PATHS constant made an explicit
parameter.  Faithful to the source, the body consults no part of it. -/
def serveWithConfig (allowedPaths : List String) (responder headResponder : String → Response)
    (errorHead : Nat → List (String × String)) (method p : String) : Response :=
  handleRequest responder headResponder errorHead method p

/-- validatePath with the normalization lines (server.py 62 to 67) removed;
compared against validatePath to show the normalization has no effect. -/
def validatePathNoNorm (path : String) : Option Reason :=
  if containsSub path ".." || containsSub path "//" then some Reason.traversal
  else if containsSub path "/." || startsWithStr path "." then some Reason.hidden
  else
    if containsSub (basename path) "." then
      let ext := lowerAscii (splitextExt path)
      if ext ∈ ALLOWED_EXTENSIONS then none else some Reason.badExt
    else none

/-- is_safe_path with the normalization computation removed. -/
def is_safe_pathNoNorm (p : String) : Bool :=
  (validatePathNoNorm ((tryUnquote (stripQuery p)).getD (stripQuery p))).isNone

/-- Helper for C5: once the traversal and hidden checks have passed, the
verdict is exactly the extension check on the basename. -/
theorem validatePath_ext_eq (d : String)
    (h1 : containsSub d ".." = false) (h2 : containsSub d "//" = false)
    (h3 : containsSub d "/." = false) (h4 : startsWithStr d "." = false) :
    validatePath d =
      (if containsSub (basename d) "." then
        (if lowerAscii (splitextExt d) ∈ ALLOWED_EXTENSIONS then none
         else some Reason.badExt)
       else none) := by
  unfold validatePath
  simp only [h1, h2, h3, h4, Bool.or_self, Bool.or_false, Bool.false_or,
    Bool.false_eq_true, if_false]

/-- Claim C3: a request path that, after query stripping and percent
decoding, contains two consecutive dots anywhere, or a doubled slash
anywhere, is rejected by is_safe_path with the path-traversal reason,
whatever surrounds the occurrence. -/
theorem C3_traversal (p : String)
    (h : containsSub (decodedPath p) ".." = true ∨
         containsSub (decodedPath p) "//" = true) :
    validate p = some Reason.traversal := by
  show validatePath (decodedPath p) = some Reason.traversal
  rcases h with h | h <;> simp [validatePath, h]

/-- Witness for C3 at the concrete request path /a/../b?x=1. -/
theorem C3_traversal_witness :
    (containsSub (decodedPath "/a/../b?x=1") ".." = true ∨
     containsSub (decodedPath "/a/../b?x=1") "//" = true) ∧
    validate "/a/../b?x=1" = some Reason.traversal :=
  ⟨Or.inl (by decide), C3_traversal "/a/../b?x=1" (Or.inl (by decide))⟩

/-- Claim C4: a decoded path that survives the traversal check and contains
a slash followed by a dot anywhere, or begins with a dot, is rejected with
the hidden-file reason — in particular never rejected with the extension
reason and never allowed, since the hidden check runs before the extension
check. -/
theorem C4_hidden (p : String)
    (ht1 : containsSub (decodedPath p) ".." = false)
    (ht2 : containsSub (decodedPath p) "//" = false)
    (h : containsSub (decodedPath p) "/." = true ∨
         startsWithStr (decodedPath p) "." = true) :
    validate p = some Reason.hidden := by
  show validatePath (decodedPath p) = some Reason.hidden
  rcases h with h | h <;> simp [validatePath, ht1, ht2, h]

/-- Witness for C4 at the concrete request path /.env.json: a hidden file
with a whitelisted extension is rejected for the hidden-file reason. -/
theorem C4_hidden_witness :
    (containsSub (decodedPath "/.env.json") ".." = false) ∧
    (containsSub (decodedPath "/.env.json") "//" = false) ∧
    (containsSub (decodedPath "/.env.json") "/." = true ∨
     startsWithStr (decodedPath "/.env.json") "." = true) ∧
    validate "/.env.json" = some Reason.hidden :=
  ⟨by decide, by decide, Or.inl (by decide),
   C4_hidden "/.env.json" (by decide) (by decide) (Or.inl (by decide))⟩

/-- Claim C6: is_safe_path is total — every string, malformed escapes
included, gets a boolean verdict — and a decode failure makes the checks
run on the query-stripped, undecoded string instead of erroring or
rejecting. -/
theorem C6_total_failopen :
    (∀ p, is_safe_path p = true ∨ is_safe_path p = false) ∧
    (∀ dec p, dec (stripQuery p) = none →
      is_safe_pathGen dec p = validatePath (stripQuery p)) := by
  refine ⟨fun p => ?_, fun dec p h => ?_⟩
  · cases h : is_safe_path p
    · exact Or.inr rfl
    · exact Or.inl rfl
  · simp [is_safe_pathGen, h]

/-- Witness for C6 with a decoder that fails on every input. -/
theorem C6_total_failopen_witness :
    ((fun _ => (none : Option String)) (stripQuery "/a%zz?q=1") = none) ∧
    is_safe_pathGen (fun _ => none) "/a%zz?q=1" = validatePath (stripQuery "/a%zz?q=1") :=
  ⟨rfl, C6_total_failopen.2 (fun _ => none) "/a%zz?q=1" rfl⟩

/-- Claim C7: the validator is a pure function of the path string: its
verdict does not depend on the log accumulated so far, a second call on the
same string returns the same verdict, and the only effect of a call is
appending its diagnostic lines to the log. -/
theorem C7_validator_pure (p : String) (log : List String) :
    (runValidator p log).1 = (runValidator p (runValidator p log).2).1 ∧
    (runValidator p log).2 = log ++ validatorEmits p ∧
    (runValidator p log).1 = is_safe_path p :=
  ⟨rfl, rfl, rfl⟩

/-- Claim C8: the normalization step is dead code — the validator with the
normalization computation removed returns the same verdict on every string,
and no containment check against the server root is ever made on the
normalized form. -/
theorem C8_normalization_dead :
    (∀ q, validatePath q = validatePathNoNorm q) ∧
    (∀ p, is_safe_path p = is_safe_pathNoNorm p) := by
  refine ⟨fun q => ?_, fun p => ?_⟩ <;> rfl

/-- Claim C10: ALLOWED_PATHS is never read: with the constant made a
parameter, every choice of its value gives the very same response to every
request, and the result is the server's behavior. -/
theorem C10_allowed_paths_unused (ap : List String)
    (responder headResponder : String → Response)
    (errorHead : Nat → List (String × String)) (method p : String) :
    serveWithConfig ap responder headResponder errorHead method p =
      serveWithConfig ALLOWED_PATHS responder headResponder errorHead method p ∧
    serveWithConfig ALLOWED_PATHS responder headResponder errorHead method p =
      handleRequest responder headResponder errorHead method p :=
  ⟨rfl, rfl⟩

/-- Claim C5: on a decoded path past the traversal and hidden checks, when
the basename contains a dot the verdict is exactly membership of the
lowercased extension from the last dot in ALLOWED_EXTENSIONS (rejecting
with the disallowed-file-type reason otherwise), and when the basename has
no dot the extension check is skipped and the path is allowed outright. -/
theorem C5_extension (p : String)
    (h1 : containsSub (decodedPath p) ".." = false)
    (h2 : containsSub (decodedPath p) "//" = false)
    (h3 : containsSub (decodedPath p) "/." = false)
    (h4 : startsWithStr (decodedPath p) "." = false) :
    validate p =
      (if containsSub (basename (decodedPath p)) "." then
        (if lowerAscii (lastDotExt (basename (decodedPath p))) ∈ ALLOWED_EXTENSIONS then
          none
         else some Reason.badExt)
       else none) := by
  have h3' : ¬ (['/', '.'] <:+: (decodedPath p).toList) :=
    of_decide_eq_false (show decide (['/', '.'] <:+: (decodedPath p).toList) = false from h3)
  have h4'' : ¬ (['.'] <+: (decodedPath p).toList) :=
    of_decide_eq_false (show decide (['.'] <+: (decodedPath p).toList) = false from h4)
  have h4' : (decodedPath p).toList.head? ≠ some '.' := by
    intro hhd
    apply h4''
    cases hl : (decodedPath p).toList with
    | nil => rw [hl] at hhd; simp at hhd
    | cons c cs =>
      rw [hl] at hhd
      simp only [List.head?_cons, Option.some.injEq] at hhd
      rw [← hhd]
      exact ⟨cs, rfl⟩
  have hh : (basenameList (decodedPath p).toList).head? ≠ some '.' :=
    basename_no_dot_head _ h3' h4'
  have hext : splitextExt (decodedPath p) = lastDotExt (basename (decodedPath p)) :=
    splitextExtList_eq_lastDot _ hh
  rw [show validate p = validatePath (decodedPath p) from rfl,
    validatePath_ext_eq _ h1 h2 h3 h4, hext]

/-- Witness for C5 at the concrete request path /data.exe: the basename has
a dot, .exe is not whitelisted, and the verdict is the disallowed-file-type
rejection computed by the claim's extension rule. -/
theorem C5_extension_witness :
    (containsSub (decodedPath "/data.exe") ".." = false) ∧
    (containsSub (decodedPath "/data.exe") "//" = false) ∧
    (containsSub (decodedPath "/data.exe") "/." = false) ∧
    (startsWithStr (decodedPath "/data.exe") "." = false) ∧
    validate "/data.exe" =
      (if containsSub (basename (decodedPath "/data.exe")) "." then
        (if lowerAscii (lastDotExt (basename (decodedPath "/data.exe"))) ∈ ALLOWED_EXTENSIONS then
          none
         else some Reason.badExt)
       else none) :=
  ⟨by decide, by decide, by decide, by decide,
   C5_extension "/data.exe" (by decide) (by decide) (by decide) (by decide)⟩

/-- Counterexample to C1 as stated: a POST request is answered 405, and its
response still carries the security headers, because send_error terminates
through the overridden end_headers. -/
theorem C1_counterexample :
    (handleRequest (fun _ => Response.mk 200 []) (fun _ => Response.mk 200 [])
        (fun _ => [("Connection", "close")]) "POST" "/index.html").status = 405 ∧
    ("X-Content-Type-Options", "nosniff") ∈
      (handleRequest (fun _ => Response.mk 200 []) (fun _ => Response.mk 200 [])
        (fun _ => [("Connection", "close")]) "POST" "/index.html").headers := by
  constructor
  · rfl
  · decide

/-- Claim C1 amended: the eight security headers, with exactly the values
of the table, are a suffix of the header list of every response the
handler produces — the allowed, successfully served responses, and also
the 403 and 405 (and 501) error responses, since send_error also ends with
the overridden end_headers. -/
theorem C1_amended_headers (responder headResponder : String → Response)
    (errorHead : Nat → List (String × String)) (method p : String) :
    List.Sublist securityHeaders
      (handleRequest responder headResponder errorHead method p).headers := by
  unfold handleRequest handleRequestWith do_GETWith sendError end_headers
  repeat' split
  all_goals exact (List.suffix_append _ _).sublist

/-- Counterexample to C2 as stated: a PATCH request — a method other than
GET — is answered 501 by the base dispatch, not 405. -/
theorem C2_counterexample :
    (handleRequest (fun _ => Response.mk 200 []) (fun _ => Response.mk 200 [])
        (fun _ => []) "PATCH" "/index.html").status = 501 ∧
    (handleRequest (fun _ => Response.mk 200 []) (fun _ => Response.mk 200 [])
        (fun _ => []) "PATCH" "/index.html").status ≠ 405 :=
  ⟨rfl, by decide⟩

/-- Claim C2 amended: a POST, PUT or DELETE request is always answered 405,
for every validator (so without consulting it) and every path; methods
beyond these three are not covered by the 405 rule (HEAD is served by the
inherited responder and unknown methods get 501, per C9 and the
counterexample). -/
theorem C2_amended_405 (safe : String → Bool)
    (responder headResponder : String → Response)
    (errorHead : Nat → List (String × String)) (method p : String)
    (h : method = "POST" ∨ method = "PUT" ∨ method = "DELETE") :
    handleRequestWith safe responder headResponder errorHead method p =
      sendError errorHead 405 ∧
    handleRequestWith safe responder headResponder errorHead method p =
      handleRequest responder headResponder errorHead method p := by
  rcases h with h | h | h <;> subst h <;> exact ⟨rfl, rfl⟩

/-- Witness for C2 amended at a POST request. -/
theorem C2_amended_405_witness :
    (("POST" : String) = "POST" ∨ ("POST" : String) = "PUT" ∨
      ("POST" : String) = "DELETE") ∧
    (handleRequestWith (fun _ => false) (fun _ => Response.mk 200 [])
        (fun _ => Response.mk 200 []) (fun _ => []) "POST" "/index.html" =
      sendError (fun _ => []) 405 ∧
     handleRequestWith (fun _ => false) (fun _ => Response.mk 200 [])
        (fun _ => Response.mk 200 []) (fun _ => []) "POST" "/index.html" =
      handleRequest (fun _ => Response.mk 200 []) (fun _ => Response.mk 200 [])
        (fun _ => []) "POST" "/index.html") :=
  ⟨Or.inl rfl,
   C2_amended_405 (fun _ => false) (fun _ => Response.mk 200 [])
     (fun _ => Response.mk 200 []) (fun _ => []) "POST" "/index.html" (Or.inl rfl)⟩

/-- Claim C9: a HEAD request is dispatched to the inherited do_HEAD of the
base file responder — the response is exactly the base outcome decorated by
end_headers, identical for every validator (is_safe_path is never
consulted), and the handler never turns HEAD into a 405 of its own. -/
theorem C9_head_dispatch (safe : String → Bool)
    (responder headResponder : String → Response)
    (errorHead : Nat → List (String × String)) (p : String) :
    handleRequestWith safe responder headResponder errorHead "HEAD" p =
      Response.mk (headResponder p).status (end_headers (headResponder p).headers) ∧
    handleRequestWith safe responder headResponder errorHead "HEAD" p =
      handleRequest responder headResponder errorHead "HEAD" p :=
  ⟨rfl, rfl⟩
